import Mathlib

/-!
Verification of the contract/policy RAG assistant core against its
natural-language specification.

The Python source (app/ingest.py, app/rag_service.py, app/contract_analyzer.py,
app/schemas.py) is shallowly embedded below.  Python strings are modelled by
Lean `String` (logically a list of characters, matching Python's
code-point-indexed strings); Python string primitives that the code relies on
(`in` substring test, `str.lower`, slicing, `str.join`, `str.split`,
`str.replace`, `str.strip`) are given executable Lean counterparts over the
character list.  JSON values produced by `json.loads` are modelled by the
inductive `JVal`; the parser itself (Python stdlib) is an external collaborator
and is passed as a function parameter, as are the embedding model, the PII
masker, the text splitter and the generative model.
-/

set_option maxHeartbeats 1000000

namespace RAGAssistant

/-! ## Character-list string primitives (Python semantics) -/

/-- Prefix test: does `pat` occur at the start of `s`?  (Bool, executable.) -/
def isPrefixAt : List Char → List Char → Bool
  | [], _ => true
  | _ :: _, [] => false
  | a :: as, b :: bs => a == b && isPrefixAt as bs

/-- Occurrence of `pat` anywhere in `s` (Python's `pat in s`). -/
def subSearch (pat : List Char) : List Char → Bool
  | [] => isPrefixAt pat []
  | c :: rest => isPrefixAt pat (c :: rest) || subSearch pat rest

/-- Python `needle in hay` for strings. -/
def strHasSub (hay needle : String) : Bool :=
  subSearch needle.data hay.data

/-- Python `sep.join(parts)`. -/
def joinWith (sep : String) : List String → String
  | [] => ""
  | [p] => p
  | p :: q :: ps => p ++ sep ++ joinWith sep (q :: ps)

/-- Python `s[:n]` (slicing by code points). -/
def pySlice (s : String) (n : Nat) : String :=
  ⟨s.data.take n⟩

/-- Python `s.lower()` (ASCII case folding; non-ASCII characters are unaffected
by the keyword matching proved below since all keywords are ASCII). -/
def pyLower (s : String) : String :=
  ⟨s.data.map Char.toLower⟩

/-- Python `s.strip()`. -/
def pyStrip (s : String) : String :=
  ⟨((s.data.dropWhile Char.isWhitespace).reverse.dropWhile Char.isWhitespace).reverse⟩

/-- Fuel-driven worker for `pyReplace`; fuel `s.length` always suffices
because each step consumes at least one character. -/
def replaceChF (pat rep : List Char) : Nat → List Char → List Char
  | _, [] => []
  | 0, s => s
  | fuel + 1, c :: rest =>
    if pat ≠ [] && isPrefixAt pat (c :: rest) then
      rep ++ replaceChF pat rep fuel (rest.drop (pat.length - 1))
    else
      c :: replaceChF pat rep fuel rest

/-- Python `s.replace(pat, rep)` (all non-overlapping occurrences, left to right). -/
def pyReplace (s pat rep : String) : String :=
  ⟨replaceChF pat.data rep.data s.data.length s.data⟩

/-- Fuel-driven worker for `splitLastPart`: the suffix after the last
occurrence of `pat`, or `none` when `pat` does not occur. -/
def afterLastChF (pat : List Char) : Nat → List Char → Option (List Char)
  | _, [] => none
  | 0, _ => none
  | fuel + 1, c :: rest =>
    if pat ≠ [] && isPrefixAt pat (c :: rest) then
      let t := rest.drop (pat.length - 1)
      match afterLastChF pat fuel t with
      | some r => some r
      | none => some t
    else afterLastChF pat fuel rest

/-- Python `s.split(sep)[-1]`. -/
def splitLastPart (s sep : String) : String :=
  match afterLastChF sep.data s.data.length s.data with
  | some r => ⟨r⟩
  | none => s

/-! Basic facts about the string primitives. -/

theorem strData_ext : ∀ (a b : String), a.data = b.data → a = b
  | ⟨_⟩, ⟨_⟩, h => congrArg String.mk h

theorem strData_append (a b : String) : (a ++ b).data = a.data ++ b.data := by
  cases a; cases b; rfl

theorem strAppend_assoc (a b c : String) : (a ++ b) ++ c = a ++ (b ++ c) := by
  apply strData_ext
  simp [strData_append]

theorem isPrefixAt_append (pat rest : List Char) :
    isPrefixAt pat (pat ++ rest) = true := by
  induction pat with
  | nil => rfl
  | cons a as ih => simp [isPrefixAt, ih]

theorem subSearch_append_self (pat post : List Char) :
    subSearch pat (pat ++ post) = true := by
  cases hs : pat ++ post with
  | nil =>
    have hp : pat = [] := by cases pat <;> simp_all
    subst hp
    simp [subSearch, isPrefixAt]
  | cons c cs =>
    simp only [subSearch]
    rw [← hs, isPrefixAt_append]
    simp

theorem subSearch_of_decomp (pat pre post s : List Char) (h : s = pre ++ pat ++ post) :
    subSearch pat s = true := by
  subst h
  induction pre with
  | nil => simpa using subSearch_append_self pat post
  | cons c cs ih =>
    simp only [List.cons_append, subSearch, Bool.or_eq_true]
    right
    simpa using ih

theorem isPrefixAt_decomp (pat : List Char) :
    ∀ s, isPrefixAt pat s = true → ∃ rest, s = pat ++ rest := by
  induction pat with
  | nil => intro s _; exact ⟨s, rfl⟩
  | cons a as ih =>
    intro s h
    cases s with
    | nil => simp [isPrefixAt] at h
    | cons b bs =>
      simp only [isPrefixAt, Bool.and_eq_true, beq_iff_eq] at h
      obtain ⟨rest, hr⟩ := ih bs h.2
      exact ⟨rest, by simp [h.1, hr]⟩

theorem subSearch_decomp (pat : List Char) :
    ∀ s, subSearch pat s = true → ∃ pre post, s = pre ++ pat ++ post := by
  intro s
  induction s with
  | nil =>
    intro h
    cases pat with
    | nil => exact ⟨[], [], rfl⟩
    | cons a as => simp [subSearch, isPrefixAt] at h
  | cons c cs ih =>
    intro h
    simp only [subSearch, Bool.or_eq_true] at h
    cases h with
    | inl h =>
      obtain ⟨rest, hr⟩ := isPrefixAt_decomp pat _ h
      exact ⟨[], rest, by simp [hr]⟩
    | inr h =>
      obtain ⟨pre, post, hp⟩ := ih h
      exact ⟨c :: pre, post, by simp [hp]⟩

/-- Correctness of `strHasSub`: it agrees with the mathematical substring relation. -/
theorem strHasSub_iff (hay needle : String) :
    strHasSub hay needle = true ↔ ∃ pre post, hay = pre ++ needle ++ post := by
  constructor
  · intro h
    obtain ⟨pre, post, hp⟩ := subSearch_decomp needle.data hay.data h
    refine ⟨⟨pre⟩, ⟨post⟩, ?_⟩
    apply strData_ext
    simpa [strData_append] using hp
  · rintro ⟨pre, post, hp⟩
    apply subSearch_of_decomp needle.data pre.data post.data
    rw [hp]
    simp [strData_append]

theorem joinWith_decomp (sep : String) :
    ∀ (parts : List String) (p : String), p ∈ parts →
      ∃ pre post, joinWith sep parts = pre ++ p ++ post := by
  intro parts
  induction parts with
  | nil => intro p h; simp at h
  | cons q qs ih =>
    intro p hp
    cases qs with
    | nil =>
      simp only [List.mem_singleton] at hp
      subst hp
      refine ⟨"", "", ?_⟩
      apply strData_ext
      simp [joinWith, strData_append]
    | cons r rs =>
      rcases List.mem_cons.mp hp with h | h
      · subst h
        exact ⟨"", sep ++ joinWith sep (r :: rs), by
          simp only [joinWith]
          apply strData_ext
          simp [strData_append]⟩
      · obtain ⟨pre, post, hj⟩ := ih p h
        refine ⟨q ++ sep ++ pre, post, ?_⟩
        simp only [joinWith, hj]
        apply strData_ext
        simp [strData_append]

/-! ## app/ingest.py — clause tagger -/

/-- Keyword table `CLAUSE_KEYWORDS` from app/ingest.py (expanded keywords based on CUAD). -/
def CLAUSE_KEYWORDS : List (String × List String) :=
  [ ("termination",
      ["terminate", "termination", "cancel", "cancellation", "rescind",
       "end of agreement", "convenience", "breach", "notice period"]),
    ("effective_date",
      ["effective date", "commencement date", "start date", "dated as of",
       "made as of", "initial term", "expiration date"]),
    ("renewal",
      ["renew", "renewal", "extension", "extend", "automatic renewal",
       "successive term"]),
    ("parties",
      ["parties", "between", "among", "entered into by", "buyer", "seller",
       "provider", "customer", "licensor", "licensee", "grantor", "grantee",
       "landlord", "tenant", "contractor"]),
    ("governing_law",
      ["governing law", "jurisdiction", "laws of", "venue", "courts of",
       "construed in accordance", "dispute resolution", "arbitration"]),
    ("confidentiality",
      ["confidential", "confidentiality", "non-disclosure", "secrecy",
       "proprietary information", "trade secret"]),
    ("payment_terms",
      ["payment", "fees", "invoice", "due date", "remittance", "pricing",
       "compensation", "royalties", "minimum commitment"]),
    ("liability",
      ["liability", "indemnification", "damages", "limitation of liability",
       "hold harmless", "cap on liability", "liquidated damages", "warranty"]),
    ("license_ip",
      ["license grant", "intellectual property", "ownership", "work for hire",
       "assignment", "patent", "trademark", "copyright", "source code"]),
    ("restrictive_covenants",
      ["non-compete", "exclusivity", "non-solicit", "competitive restriction",
       "most favored nation", "territory"]) ]

/-- The `detected` list built by `detect_clause_types`: clause names whose
keyword list has some member occurring in the lower-cased text. -/
def detectedClauses (text : String) : List String :=
  (CLAUSE_KEYWORDS.filter
    (fun ck => ck.2.any (fun kw => strHasSub (pyLower text) kw))).map Prod.fst

/-- Function `detect_clause_types` from app/ingest.py: comma-separated string of
detected clause types, `"general"` when none is detected. -/
def detect_clause_types (text : String) : String :=
  let detected := detectedClauses text
  if detected = [] then "general" else joinWith "," detected

/-! ## app/contract_analyzer.py — smart-context assembly -/

/-- A stored chunk as the analyzer sees it: the document text plus the
`clause_types` (comma-joined tag string) and `chunk_index` metadata written
by ingestion.  Ingestion always writes both metadata keys, so the
`meta.get(..., default)` fallbacks in the source never fire for stored data. -/
structure Chunk where
  text : String
  clause_types : String
  chunk_index : Nat
deriving DecidableEq, Repr

/-- The bucket keys of the `relevant_sections` dictionary. -/
inductive BucketId where
  | general
  | parties
  | effective_date
  | termination
  | governing_law
  | confidentiality
  | payment_terms
  | liability
deriving DecidableEq, Repr

/-- Membership test used when distributing a chunk to a bucket.  The source
tests `"tag" in tags`, a Python substring test on the comma-joined string. -/
def bucketPred : BucketId → Chunk → Bool
  | .general, c => decide (c.chunk_index < 3)
  | .parties, c => strHasSub c.clause_types "parties"
  | .effective_date, c =>
      strHasSub c.clause_types "effective_date" || strHasSub c.clause_types "renewal"
  | .termination, c => strHasSub c.clause_types "termination"
  | .governing_law, c => strHasSub c.clause_types "governing_law"
  | .confidentiality, c => strHasSub c.clause_types "confidentiality"
  | .payment_terms, c => strHasSub c.clause_types "payment_terms"
  | .liability, c =>
      strHasSub c.clause_types "liability" ||
      strHasSub c.clause_types "restrictive_covenants" ||
      strHasSub c.clause_types "license_ip"

/-- A bucket of `relevant_sections`: the single pass over `zip(documents,
metadatas)` appends each matching chunk's text in store order, which is the
order-preserving filter of the input. -/
def bucketOf (b : BucketId) (cs : List Chunk) : List String :=
  (cs.filter (bucketPred b)).map Chunk.text

/-- Helper `get_top_chunks` from app/contract_analyzer.py. -/
def get_top_chunks (chunks : List String) (limit : Nat) : String :=
  joinWith "\n...\n" (chunks.take limit)

/-- The per-bucket `limit` passed to `get_top_chunks` (3 for the intro/general
and liability sections, the default 2 elsewhere). -/
def limitOf : BucketId → Nat
  | .general => 3
  | .liability => 3
  | _ => 2

/-- The section header of each rendered bucket (`f"--- LABEL ---\n..."`).
The confidentiality bucket is populated by the source but never rendered;
its header value here is irrelevant (see `renderOrder`). -/
def headerOf : BucketId → String
  | .general => "--- INTRO ---\n"
  | .parties => "--- PARTIES ---\n"
  | .effective_date => "--- DATES ---\n"
  | .termination => "--- TERMINATION ---\n"
  | .governing_law => "--- LAW ---\n"
  | .payment_terms => "--- PAYMENT ---\n"
  | .liability => "--- RISK FACTORS (Liability/IP/Restrictions) ---\n"
  | .confidentiality => ""

/-- The buckets rendered into `context_parts`, in source order. -/
def renderOrder : List BucketId :=
  [.general, .parties, .effective_date, .termination,
   .governing_law, .payment_terms, .liability]

/-- List `context_parts` from app/contract_analyzer.py. -/
def context_parts (cs : List Chunk) : List String :=
  [ "--- INTRO ---\n" ++ get_top_chunks (bucketOf .general cs) 3,
    "--- PARTIES ---\n" ++ get_top_chunks (bucketOf .parties cs) 2,
    "--- DATES ---\n" ++ get_top_chunks (bucketOf .effective_date cs) 2,
    "--- TERMINATION ---\n" ++ get_top_chunks (bucketOf .termination cs) 2,
    "--- LAW ---\n" ++ get_top_chunks (bucketOf .governing_law cs) 2,
    "--- PAYMENT ---\n" ++ get_top_chunks (bucketOf .payment_terms cs) 2,
    "--- RISK FACTORS (Liability/IP/Restrictions) ---\n" ++
      get_top_chunks (bucketOf .liability cs) 3 ]

/-- Python `full_context = "\n\n".join(context_parts)`. -/
def full_context (cs : List Chunk) : String :=
  joinWith "\n\n" (context_parts cs)

/-- Python `context_text = full_context[:6000]` — the hard character-budget cut. -/
def context_text (cs : List Chunk) : String :=
  pySlice (full_context cs) 6000

/-! ## JSON values and Python-truthiness -/

/-- Values produced by `json.loads`.  Numbers are modelled by `Int`
(the schema's only numeric field, `risk_score`, is integer-typed). -/
inductive JVal where
  | jnull
  | jbool (b : Bool)
  | jnum (n : Int)
  | jstr (s : String)
  | jarr (xs : List JVal)
  | jobj (fields : List (String × JVal))

/-- Python truthiness (`if val:`) on a JSON value. -/
def truthy : JVal → Bool
  | .jnull => false
  | .jbool b => b
  | .jnum n => n != 0
  | .jstr s => s != ""
  | .jarr xs => !xs.isEmpty
  | .jobj fs => !fs.isEmpty

mutual
/-- Python `repr` of a JSON value (used inside container rendering;
string-escaping subtleties of `repr` are irrelevant to the claims, which only
inspect flat containers of strings). -/
def pyRepr : JVal → String
  | .jnull => "None"
  | .jbool true => "True"
  | .jbool false => "False"
  | .jnum n => toString n
  | .jstr s => "'" ++ s ++ "'"
  | .jarr xs => "[" ++ joinWith ", " (pyReprList xs) ++ "]"
  | .jobj kvs => "\x7b" ++ joinWith ", " (pyReprObj kvs) ++ "\x7d"

def pyReprList : List JVal → List String
  | [] => []
  | v :: vs => pyRepr v :: pyReprList vs

def pyReprObj : List (String × JVal) → List String
  | [] => []
  | kv :: kvs => ("'" ++ kv.1 ++ "': " ++ pyRepr kv.2) :: pyReprObj kvs
end

/-- Python `str` of a JSON value (`str(x)` equals `repr(x)` except on strings). -/
def pyStr : JVal → String
  | .jstr s => s
  | v => pyRepr v

/-- Python dict lookup `d.get(k)` on the (unique-keyed) objects produced by
`json.loads`, modelled as first-match lookup in an association list. -/
def jlookup (fs : List (String × JVal)) (k : String) : Option JVal :=
  match fs with
  | [] => none
  | kv :: rest => if kv.1 == k then some kv.2 else jlookup rest k

/-- Python dict assignment `d[k] = v`: in-place update of an existing key
(insertion order preserved), append for a fresh key. -/
def jset (fs : List (String × JVal)) (k : String) (v : JVal) : List (String × JVal) :=
  match fs with
  | [] => [(k, v)]
  | kv :: rest => if kv.1 == k then (k, v) :: rest else kv :: jset rest k v

/-! ## app/schemas.py -/

/-- Pydantic model `PaymentTerms`. -/
structure PaymentTerms where
  description : Option String
  due_date : Option String
deriving DecidableEq, Repr

/-- Pydantic model `ContractSchema` (the ExtractionResult of the spec).
All fields are `Optional` with default `None`. -/
structure ContractSchema where
  doc_id : Option String
  parties : Option String
  effective_date : Option String
  termination_clause : Option String
  confidentiality_clause : Option String
  governing_law : Option String
  payment_terms : Option PaymentTerms
  risk_score : Option Int
  notes : Option String
deriving DecidableEq, Repr

/-- Python `ContractSchema(doc_id=file_name, notes=note)`: every other field
takes its `None` default. -/
def minimalSchema (file_name note : String) : ContractSchema :=
  ⟨some file_name, none, none, none, none, none, none, none, some note⟩

/-! ## app/contract_analyzer.py — response coercion -/

/-- List `string_fields` from `ContractAnalyzer.analyze`. -/
def string_fields : List String :=
  ["parties", "effective_date", "termination_clause", "confidentiality_clause",
   "governing_law", "notes"]

/-- Python `", ".join([str(item) for item in val])`. -/
def pyJoinList (xs : List JVal) : String :=
  joinWith ", " (xs.map pyStr)

/-- Python `", ".join([f"{k}: {v}" for k, v in val.items()])`
(f-string formatting goes through `str`). -/
def pyJoinDict (kvs : List (String × JVal)) : String :=
  joinWith ", " (kvs.map (fun kv => kv.1 ++ ": " ++ pyStr kv.2))

/-- One iteration of the `for field in string_fields` repair loop:
a truthy list or mapping under `field` is replaced by its joined string form;
anything else (including falsy values — empty list, empty dict, `""`, `None`,
absent key) is left untouched. -/
def stepRepair (acc : List (String × JVal)) (field : String) : List (String × JVal) :=
  match jlookup acc field with
  | none => acc
  | some v =>
    if truthy v then
      match v with
      | .jarr xs => jset acc field (.jstr (pyJoinList xs))
      | .jobj kvs => jset acc field (.jstr (pyJoinDict kvs))
      | _ => acc
    else acc

/-- The string-field repair loop of `ContractAnalyzer.analyze`. -/
def repairStringFields (fs : List (String × JVal)) : List (String × JVal) :=
  string_fields.foldl stepRepair fs

/-- The `payment_terms` repair of `ContractAnalyzer.analyze`: a truthy bare
string is wrapped as a description record, a truthy list is joined and
wrapped; anything else is left untouched. -/
def repairPayment (fs : List (String × JVal)) : List (String × JVal) :=
  match jlookup fs "payment_terms" with
  | none => fs
  | some pt =>
    if truthy pt then
      match pt with
      | .jstr s => jset fs "payment_terms" (.jobj [("description", .jstr s)])
      | .jarr xs => jset fs "payment_terms" (.jobj [("description", .jstr (pyJoinList xs))])
      | _ => fs
    else fs

/-- The full shape repair applied before validation (string fields first,
then `payment_terms`, exactly as in the source). -/
def repairShape (fs : List (String × JVal)) : List (String × JVal) :=
  repairPayment (repairStringFields fs)

/-- Pydantic validation of one `Optional[str]` field: absent or `null` gives
`None`; a string passes through; any other shape raises a validation error
(the exact Python error text is not modelled; only its presence matters). -/
def getStrField (fs : List (String × JVal)) (name : String) : Except String (Option String) :=
  match jlookup fs name with
  | none => .ok none
  | some .jnull => .ok none
  | some (.jstr s) => .ok (some s)
  | some _ => .error ("Input should be a valid string: " ++ name)

/-- Pydantic validation of the `Optional[int]` field `risk_score`. -/
def getIntField (fs : List (String × JVal)) (name : String) : Except String (Option Int) :=
  match jlookup fs name with
  | none => .ok none
  | some .jnull => .ok none
  | some (.jnum n) => .ok (some n)
  | some _ => .error ("Input should be a valid integer: " ++ name)

/-- Pydantic validation of the `Optional[PaymentTerms]` field. -/
def getPaymentField (fs : List (String × JVal)) : Except String (Option PaymentTerms) :=
  match jlookup fs "payment_terms" with
  | none => .ok none
  | some .jnull => .ok none
  | some (.jobj pfs) =>
    match getStrField pfs "description", getStrField pfs "due_date" with
    | .ok d, .ok dd => .ok (some ⟨d, dd⟩)
    | .error e, _ => .error e
    | _, .error e => .error e
  | some _ => .error "Input should be a valid PaymentTerms object"

/-- Python `ContractSchema(**data)`: structural validation of the repaired
object.  Extra keys are ignored (pydantic's default); validation fails iff
some field has an unacceptable shape (the concrete error text, and pydantic's
aggregation of several field errors into one message, are not modelled — only
success versus failure and the success value matter to the claims). -/
def validateSchema (fs : List (String × JVal)) : Except String ContractSchema :=
  match getStrField fs "doc_id" with
  | .error e => .error e
  | .ok doc_id =>
  match getStrField fs "parties" with
  | .error e => .error e
  | .ok parties =>
  match getStrField fs "effective_date" with
  | .error e => .error e
  | .ok effective_date =>
  match getStrField fs "termination_clause" with
  | .error e => .error e
  | .ok termination_clause =>
  match getStrField fs "confidentiality_clause" with
  | .error e => .error e
  | .ok confidentiality_clause =>
  match getStrField fs "governing_law" with
  | .error e => .error e
  | .ok governing_law =>
  match getPaymentField fs with
  | .error e => .error e
  | .ok payment_terms =>
  match getIntField fs "risk_score" with
  | .error e => .error e
  | .ok risk_score =>
  match getStrField fs "notes" with
  | .error e => .error e
  | .ok notes =>
    .ok ⟨doc_id, parties, effective_date, termination_clause, confidentiality_clause,
         governing_law, payment_terms, risk_score, notes⟩

/-- Steps `generated_text.split("<|assistant|>")[-1].strip()` followed by
markdown code-fence stripping, from `ContractAnalyzer.analyze`. -/
def cleanResponse (generated_text : String) : String :=
  let response := pyStrip (splitLastPart generated_text "<|assistant|>")
  pyStrip (pyReplace (pyReplace response "```json" "") "```" "")

/-- The try/except block of `ContractAnalyzer.analyze`, i.e. the coercer of
the spec: parse (modelled by the external `parse` collaborator standing for
`json.loads`; `none` is `JSONDecodeError`), repair, validate, with a degraded
`ContractSchema` on every failure.  A parsed value that is not an object
makes the repair loop's `data.get` raise `AttributeError`, absorbed by the
generic `except Exception` branch of the source. -/
def coerce (parse : String → Option JVal) (file_name generated_text : String) :
    ContractSchema :=
  match parse (cleanResponse generated_text) with
  | none =>
    minimalSchema file_name
      ("Failed to parse analysis result. Raw output: " ++
        pySlice (cleanResponse generated_text) 100)
  | some (.jobj fs) =>
    match validateSchema (repairShape fs) with
    | .ok cs => cs
    | .error e => minimalSchema file_name ("Validation error: " ++ e)
  | some _ =>
    minimalSchema file_name
      ("Validation error: object has no attribute get")

/-- Extraction prompt template of `ContractAnalyzer.analyze`. -/
def extraction_prompt (file_name ctx : String) : String :=
  "<|system|>\nYou are a legal expert. Analyze the following contract text segments and extract the required fields in STRICT JSON format.\nDo not include any markdown formatting or explanation. Just the JSON.\nFields required:\n- doc_id: \"" ++ file_name ++
  "\"\n- parties: Who are the parties?\n- effective_date: When does it start?\n- termination_clause: Summary of termination rights.\n- confidentiality_clause: Summary of confidentiality obligations.\n- governing_law: Which jurisdiction?\n- payment_terms: \x7b \"description\": \"...\", \"due_date\": \"...\" \x7d\n- risk_score: Integer 0-100 based on risk (high liability, strict termination = high risk).\n- notes: Any other key observations.\n\nIf a field is not found, use null.\n<|end|>\n<|user|>\nContract Segments:\n" ++ ctx ++ "\n<|end|>\n<|assistant|>"

/-- Entry point `ContractAnalyzer.analyze`.  External collaborators are
passed in: `chunks` is the store's `get(where={"source": file_name})` result,
`pipeLoaded` whether the generative pipeline initialised, `gen` the pipeline
(prompt to full generated text), `parse` the stdlib JSON parser. -/
def analyze (file_name : String) (chunks : List Chunk) (pipeLoaded : Bool)
    (gen : String → String) (parse : String → Option JVal) : ContractSchema :=
  if chunks.isEmpty then
    minimalSchema file_name "No content found."
  else if pipeLoaded then
    coerce parse file_name (gen (extraction_prompt file_name (context_text chunks)))
  else
    minimalSchema file_name "LLM not loaded."

/-! ## app/rag_service.py — Q&A path -/

/-- Constant `DISTANCE_THRESHOLD` from app/rag_service.py.  Store distances
are modelled by exact rationals; the comparisons performed by the code are
order comparisons only, for which this is faithful. -/
def DISTANCE_THRESHOLD : ℚ := 1

/-- One retrieved passage as built by `RAGService.retrieve`. -/
structure RetrievedDoc where
  text : String
  source : String
  score : ℚ
deriving DecidableEq, Repr

/-- Result dictionary of `RAGService.answer_question`. -/
structure QAResult where
  answer : String
  citations : List String
  similarity_scores : List ℚ
deriving DecidableEq, Repr

/-- The threshold filter `[d for d in docs if d['score'] < DISTANCE_THRESHOLD]`. -/
def relevantDocs (docs : List RetrievedDoc) : List RetrievedDoc :=
  docs.filter (fun d => decide (d.score < DISTANCE_THRESHOLD))

/-- Q&A prompt template of `RAGService.answer_question`. -/
def qa_prompt (context question : String) : String :=
  "<|system|>\nYou are a helpful compliance assistant. Answer the question based ONLY on the provided context. \nIf the answer is not in the context, say \"No relevant info found.\"\nInclude citations to the source documents.\n<|end|>\n<|user|>\nContext:\n" ++
  context ++ "\n\nQuestion: " ++ question ++ "\n<|end|>\n<|assistant|>"

/-- Python `list(set(xs))`.  CPython's set iteration order is unspecified;
it is modelled as first-occurrence deduplication (the claims below depend
only on emptiness, which is order-independent). -/
def dedupFirst (l : List String) : List String :=
  l.foldl (fun acc s => if acc.contains s then acc else acc ++ [s]) []

/-- Method `RAGService.answer_question`.  `docs` is the `retrieve` result,
`gen` the generative pipeline.  The second component records whether the
generation call was issued (`self.pipe(...)` in the source). -/
def answer_question (question : String) (docs : List RetrievedDoc)
    (pipeLoaded : Bool) (gen : String → String) : QAResult × Bool :=
  let relevant_docs := relevantDocs docs
  if relevant_docs.isEmpty then
    (⟨"No relevant info found.", [], []⟩, false)
  else
    let context := joinWith "\n\n"
      (relevant_docs.map (fun d => "Source: " ++ d.source ++ "\nContent: " ++ d.text))
    let prompt := qa_prompt context question
    let answer :=
      if pipeLoaded then pyStrip (splitLastPart (gen prompt) "<|assistant|>")
      else "LLM not loaded. Cannot generate answer."
    (⟨answer, dedupFirst (relevant_docs.map RetrievedDoc.source),
      relevant_docs.map RetrievedDoc.score⟩, pipeLoaded)

/-! ## app/ingest.py — ingestion pipeline -/

/-- Observable collaborator calls made by `ingest_documents` for one file,
in program order: `extract_text_from_pdf`, `text_splitter.split_text`,
`mask_pii` per chunk, `embed_texts` (one call for the whole chunk list),
`detect_clause_types` per chunk, `collection.upsert`. -/
inductive IngestEvent where
  | extractText (file : String)
  | splitText (file : String)
  | maskChunk (file : String) (i : Nat)
  | embedChunks (file : String)
  | tagChunk (file : String) (i : Nat)
  | upsertCall (file : String)
deriving DecidableEq, Repr

/-- Metadata written for one chunk by `ingest_documents`. -/
structure ChunkMeta where
  source : String
  doc_type : String
  chunk_index : Nat
  clause_types : String
deriving DecidableEq, Repr

/-- The argument bundle of the `collection.upsert` call. -/
structure UpsertPayload (E : Type) where
  documents : List String
  embeddings : List E
  metadatas : List ChunkMeta
  ids : List String

/-- One iteration of the `for file_path in all_files` loop of
`ingest_documents`, returning the collaborator-call trace and the upsert
payload (`none` when the `continue` guards fire: empty extracted text or an
empty chunk list). -/
def ingest_one {E : Type} (split : String → List String) (mask : String → String)
    (embedF : List String → List E) (doc_type file_name raw_text : String) :
    List IngestEvent × Option (UpsertPayload E) :=
  if raw_text = "" then ([IngestEvent.extractText file_name], none)
  else
    let raw_chunks := split raw_text
    if raw_chunks = [] then
      ([IngestEvent.extractText file_name, IngestEvent.splitText file_name], none)
    else
      let chunks := raw_chunks.map mask
      ([IngestEvent.extractText file_name, IngestEvent.splitText file_name]
         ++ (List.range raw_chunks.length).map (IngestEvent.maskChunk file_name)
         ++ [IngestEvent.embedChunks file_name]
         ++ (List.range chunks.length).map (IngestEvent.tagChunk file_name)
         ++ [IngestEvent.upsertCall file_name],
       some ⟨chunks, embedF chunks,
             chunks.enum.map (fun p => ⟨file_name, doc_type, p.1, detect_clause_types p.2⟩),
             (List.range chunks.length).map (fun i => file_name ++ "_" ++ toString i)⟩)

/-- Function `ingest_documents`: the per-file loop over all found files,
each given as `(doc_type, file_name, raw_text)`. -/
def ingest_documents {E : Type} (split : String → List String)
    (mask : String → String) (embedF : List String → List E)
    (files : List (String × String × String)) :
    List IngestEvent × List (UpsertPayload E) :=
  files.foldl
    (fun acc f =>
      let r := ingest_one split mask embedF f.1 f.2.1 f.2.2
      (acc.1 ++ r.1, acc.2 ++ (match r.2 with | some p => [p] | none => [])))
    ([], [])

/-! ## Lemmas about dict lookup/update and the repair loop -/

theorem jlookup_jset_self (fs : List (String × JVal)) (k : String) (v : JVal) :
    jlookup (jset fs k v) k = some v := by
  induction fs with
  | nil => simp [jset, jlookup]
  | cons kv rest ih =>
    by_cases h : kv.1 == k
    · simp [jset, jlookup, h]
    · simp only [jset, jlookup, h]
      simpa [jlookup, h] using ih

theorem jlookup_jset_ne (fs : List (String × JVal)) (k : String) (v : JVal)
    (f : String) (h : f ≠ k) : jlookup (jset fs k v) f = jlookup fs f := by
  induction fs with
  | nil =>
    simp only [jset, jlookup]
    have : (k == f) = false := by simpa using fun he => h he.symm
    simp [this]
  | cons kv rest ih =>
    by_cases hk : kv.1 == k
    · have hkey : kv.1 = k := by simpa using hk
      have hne : (k == f) = false := by simpa using fun he => h he.symm
      simp [jset, jlookup, hk, hne, hkey]
    · simp only [jset, hk, cond_false, jlookup]
      by_cases hf : kv.1 == f
      · simp [jlookup, hf]
      · simp [jlookup, hf, ih]

/-- Effect of one repair step on the field it processes. -/
def repairValue (v : JVal) : JVal :=
  if truthy v then
    match v with
    | .jarr xs => .jstr (pyJoinList xs)
    | .jobj kvs => .jstr (pyJoinDict kvs)
    | _ => v
  else v

theorem jlookup_stepRepair_self (acc : List (String × JVal)) (field : String)
    (v : JVal) (h : jlookup acc field = some v) :
    jlookup (stepRepair acc field) field = some (repairValue v) := by
  unfold stepRepair repairValue
  rw [h]
  by_cases ht : truthy v
  · cases v <;> simp [ht, h, jlookup_jset_self]
  · simp [ht, h]

theorem jlookup_stepRepair_ne (acc : List (String × JVal)) (field f : String)
    (h : f ≠ field) : jlookup (stepRepair acc field) f = jlookup acc f := by
  unfold stepRepair
  cases hl : jlookup acc field with
  | none => rfl
  | some v =>
    by_cases ht : truthy v
    · cases v <;> simp [ht, jlookup_jset_ne _ _ _ _ h]
    · simp [ht]

theorem foldl_stepRepair_not_mem (fields : List String) (acc : List (String × JVal))
    (f : String) (h : f ∉ fields) :
    jlookup (fields.foldl stepRepair acc) f = jlookup acc f := by
  induction fields generalizing acc with
  | nil => rfl
  | cons g gs ih =>
    have hg : f ≠ g := fun he => h (by simp [he])
    have hgs : f ∉ gs := fun hm => h (by simp [hm])
    simp only [List.foldl_cons]
    rw [ih (stepRepair acc g) hgs, jlookup_stepRepair_ne _ _ _ hg]

theorem foldl_stepRepair_mem (fields : List String) (acc : List (String × JVal))
    (f : String) (hf : f ∈ fields) (hnd : fields.Nodup) (v : JVal)
    (h : jlookup acc f = some v) :
    jlookup (fields.foldl stepRepair acc) f = some (repairValue v) := by
  induction fields generalizing acc with
  | nil => simp at hf
  | cons g gs ih =>
    simp only [List.foldl_cons]
    rcases List.mem_cons.mp hf with he | hm
    · subst he
      have hnot : f ∉ gs := by
        have := List.nodup_cons.mp hnd
        exact this.1
      rw [foldl_stepRepair_not_mem gs _ f hnot, jlookup_stepRepair_self acc f v h]
    · have hg : f ≠ g := by
        intro he
        subst he
        exact (List.nodup_cons.mp hnd).1 hm
      exact ih (stepRepair acc g) hm (List.nodup_cons.mp hnd).2
        (by rw [jlookup_stepRepair_ne acc g f hg]; exact h)

theorem jlookup_repairPayment_ne (fs : List (String × JVal)) (f : String)
    (h : f ≠ "payment_terms") :
    jlookup (repairPayment fs) f = jlookup fs f := by
  unfold repairPayment
  cases hl : jlookup fs "payment_terms" with
  | none => rfl
  | some pt =>
    by_cases ht : truthy pt
    · cases pt <;> simp [ht, jlookup_jset_ne _ _ _ _ h]
    · simp [ht]

/-- Lookup inside the repaired object, for a scalar-string schema field. -/
theorem jlookup_repairShape (fs : List (String × JVal)) (f : String)
    (hf : f ∈ string_fields) (v : JVal) (h : jlookup fs f = some v) :
    jlookup (repairShape fs) f = some (repairValue v) := by
  have hnp : f ≠ "payment_terms" := by
    fin_cases hf <;> decide
  have hnd : string_fields.Nodup := by decide
  unfold repairShape repairStringFields
  rw [jlookup_repairPayment_ne _ _ hnp]
  exact foldl_stepRepair_mem string_fields fs f hf hnd v h

/-- Projection of a validated schema by source field name (the six
scalar-string fields of the repair loop). -/
def schemaStrField (cs : ContractSchema) (f : String) : Option String :=
  if f = "parties" then cs.parties
  else if f = "effective_date" then cs.effective_date
  else if f = "termination_clause" then cs.termination_clause
  else if f = "confidentiality_clause" then cs.confidentiality_clause
  else if f = "governing_law" then cs.governing_law
  else if f = "notes" then cs.notes
  else none

theorem validateSchema_ok_fields (fs : List (String × JVal)) (cs : ContractSchema)
    (h : validateSchema fs = .ok cs) :
    getStrField fs "parties" = .ok cs.parties ∧
    getStrField fs "effective_date" = .ok cs.effective_date ∧
    getStrField fs "termination_clause" = .ok cs.termination_clause ∧
    getStrField fs "confidentiality_clause" = .ok cs.confidentiality_clause ∧
    getStrField fs "governing_law" = .ok cs.governing_law ∧
    getStrField fs "notes" = .ok cs.notes := by
  unfold validateSchema at h
  repeat' split at h
  all_goals cases h
  all_goals exact ⟨by assumption, by assumption, by assumption, by assumption,
    by assumption, by assumption⟩

/-! ## Claims -/

/-- C1: Coercion is total — being a Lean function, `coerce` returns a
well-formed `ContractSchema` for every raw output string and every behaviour
of the external JSON parser, and has no failure channel.  On JSON parse
failure (parser returns `none`, modelling `json.JSONDecodeError`) it returns
the minimal record carrying the requested `doc_id` and a notes field holding
the parse-failure message plus the first 100 characters of the cleaned raw
output. -/
theorem claim_C1_coerce_parse_failure :
    ∀ (parse : String → Option JVal) (file_name generated_text : String),
      parse (cleanResponse generated_text) = none →
      coerce parse file_name generated_text =
        minimalSchema file_name
          ("Failed to parse analysis result. Raw output: " ++
            pySlice (cleanResponse generated_text) 100) := by
  intro parse fn gt h
  unfold coerce
  rw [h]

theorem claim_C1_witness :
    coerce (fun _ => none) "contract.pdf" "this is \x7b not json" =
      minimalSchema "contract.pdf"
        "Failed to parse analysis result. Raw output: this is \x7b not json" :=
  claim_C1_coerce_parse_failure (fun _ => none) "contract.pdf" "this is \x7b not json" rfl

/-- C2 (counterexample): the claim includes empty lists/mappings, but the
repair loop guards with Python truthiness (`if val:`), so an empty list under
a string-typed field is NOT joined to the scalar `""`; it is left as a list,
validation fails, and the analyzer returns the degraded record with that
field `None`. -/
theorem claim_C2_counterexample :
    (coerce (fun _ => some (JVal.jobj [("parties", JVal.jarr [])])) "doc.pdf" "raw").parties
        ≠ some (pyJoinList []) ∧
    coerce (fun _ => some (JVal.jobj [("parties", JVal.jarr [])])) "doc.pdf" "raw" =
      minimalSchema "doc.pdf" "Validation error: Input should be a valid string: parties" := by
  have h2 : coerce (fun _ => some (JVal.jobj [("parties", JVal.jarr [])])) "doc.pdf" "raw" =
      minimalSchema "doc.pdf" "Validation error: Input should be a valid string: parties" := by
    rfl
  refine ⟨fun hcontra => ?_, h2⟩
  rw [h2] at hcontra
  exact Option.noConfusion hcontra

/-- C2 (amended): for a syntactically valid JSON object, every **non-empty**
(truthy) list or mapping under a string-typed field is coerced to a scalar
string — a list joined element-wise with `", "`, a mapping rendered as
`"key: value"` pairs joined with `", "` — and when validation then succeeds
the resulting record holds exactly that joined string in the corresponding
field.  Empty lists/mappings are excluded: they are falsy, skipped by the
repair, and fail validation (see the counterexample). -/
theorem claim_C2_amended :
    ∀ (fs : List (String × JVal)) (f : String), f ∈ string_fields →
      (∀ xs, xs ≠ [] → jlookup fs f = some (.jarr xs) →
        jlookup (repairShape fs) f = some (.jstr (pyJoinList xs))) ∧
      (∀ kvs, kvs ≠ [] → jlookup fs f = some (.jobj kvs) →
        jlookup (repairShape fs) f = some (.jstr (pyJoinDict kvs))) ∧
      (∀ cs s, validateSchema (repairShape fs) = .ok cs →
        jlookup (repairShape fs) f = some (.jstr s) →
        schemaStrField cs f = some s) := by
  intro fs f hf
  refine ⟨?_, ?_, ?_⟩
  · intro xs hne hl
    have hr := jlookup_repairShape fs f hf _ hl
    rwa [show repairValue (.jarr xs) = .jstr (pyJoinList xs) by
      simp [repairValue, truthy, hne]] at hr
  · intro kvs hne hl
    have hr := jlookup_repairShape fs f hf _ hl
    rwa [show repairValue (.jobj kvs) = .jstr (pyJoinDict kvs) by
      simp [repairValue, truthy, hne]] at hr
  · intro cs s hok hl
    obtain ⟨h1, h2, h3, h4, h5, h6⟩ := validateSchema_ok_fields _ _ hok
    fin_cases hf
    · simp only [getStrField, hl] at h1
      injection h1 with h'
      simp [schemaStrField, ← h']
    · simp only [getStrField, hl] at h2
      injection h2 with h'
      simp [schemaStrField, ← h']
    · simp only [getStrField, hl] at h3
      injection h3 with h'
      simp [schemaStrField, ← h']
    · simp only [getStrField, hl] at h4
      injection h4 with h'
      simp [schemaStrField, ← h']
    · simp only [getStrField, hl] at h5
      injection h5 with h'
      simp [schemaStrField, ← h']
    · simp only [getStrField, hl] at h6
      injection h6 with h'
      simp [schemaStrField, ← h']

theorem claim_C2_witness :
    jlookup
      (repairShape [("parties", JVal.jarr [JVal.jstr "Acme Corp", JVal.jstr "Beta LLC"])])
      "parties" = some (JVal.jstr "Acme Corp, Beta LLC") :=
  (claim_C2_amended [("parties", JVal.jarr [JVal.jstr "Acme Corp", JVal.jstr "Beta LLC"])]
    "parties" (by decide)).1 [JVal.jstr "Acme Corp", JVal.jstr "Beta LLC"] (by simp) rfl

/-- C3: the assembled smart-context text passed to the extraction prompt is
the hard character cut of the concatenated sections at the fixed 6000
character budget: its length never exceeds 6000, equals `min 6000 |full|`
(so the cut is exactly at the budget boundary whenever the concatenation is
longer), and it is a character-level prefix of the concatenation (a hard cut,
not a cut at a section boundary). -/
theorem claim_C3_context_budget :
    ∀ cs : List Chunk,
      (context_text cs).length ≤ 6000 ∧
      (context_text cs).length = min 6000 (full_context cs).length ∧
      (context_text cs).data <+: (full_context cs).data := by
  intro cs
  refine ⟨?_, ?_, List.take_prefix 6000 _⟩
  · show ((full_context cs).data.take 6000).length ≤ 6000
    have h := List.length_take 6000 (full_context cs).data
    omega
  · show ((full_context cs).data.take 6000).length = min 6000 (full_context cs).length
    rw [List.length_take]
    rfl

/-- C4: when threshold filtering leaves zero surviving passages, the Q&A
path returns exactly the fixed no-relevant-info result with empty citations
and scores, and the generation flag is `false` — no generation call is
issued. -/
theorem claim_C4_qa_short_circuit :
    ∀ (question : String) (docs : List RetrievedDoc) (pipeLoaded : Bool)
      (gen : String → String),
      relevantDocs docs = [] →
      answer_question question docs pipeLoaded gen =
        (⟨"No relevant info found.", [], []⟩, false) := by
  intro q docs p g h
  simp [answer_question, h]

theorem claim_C4_witness :
    answer_question "What is the notice period?"
      [⟨"irrelevant text", "a.pdf", (1.5 : ℚ)⟩] true (fun p => p) =
      (⟨"No relevant info found.", [], []⟩, false) :=
  claim_C4_qa_short_circuit _ _ _ _
    (by norm_num [relevantDocs, DISTANCE_THRESHOLD, List.filter])

/-- C5: a retrieved passage survives relevance filtering iff its distance is
strictly below the threshold (so distance ≥ threshold is discarded entirely),
and on the distances 0.2, 0.9, 1.3 with threshold 1.0 exactly the two
passages with distances 0.2 and 0.9 survive. -/
theorem claim_C5_threshold_filter :
    (∀ (docs : List RetrievedDoc) (d : RetrievedDoc),
      d ∈ relevantDocs docs ↔ d ∈ docs ∧ d.score < DISTANCE_THRESHOLD) ∧
    (relevantDocs
        [⟨"p1", "s1", (0.2 : ℚ)⟩, ⟨"p2", "s2", (0.9 : ℚ)⟩, ⟨"p3", "s3", (1.3 : ℚ)⟩]).map
      RetrievedDoc.score = [(0.2 : ℚ), (0.9 : ℚ)] := by
  constructor
  · intro docs d
    simp [relevantDocs, List.mem_filter]
  · norm_num [relevantDocs, DISTANCE_THRESHOLD, List.filter]

/-- Does the coercion step of `ContractAnalyzer.analyze` end in a degraded
branch (parse failure, non-object JSON, or validation failure)? -/
def coerceFails (parse : String → Option JVal) (generated_text : String) : Bool :=
  match parse (cleanResponse generated_text) with
  | none => true
  | some (.jobj fs) =>
    match validateSchema (repairShape fs) with
    | .ok _ => false
    | .error _ => true
  | some _ => true

/-- C10: on every degraded path of contract analysis — no chunks for the
document id, generative model unavailable, JSON parse failure, or validation
failure after repair — the returned record is `minimalSchema file_name note`
for some note: `doc_id` equals the requested file name, `notes` is a non-null
string, and all seven remaining fields are null. -/
theorem claim_C10_degraded_record :
    ∀ (file_name : String) (chunks : List Chunk) (pipeLoaded : Bool)
      (gen : String → String) (parse : String → Option JVal),
      (chunks = [] ∨ pipeLoaded = false ∨
        coerceFails parse (gen (extraction_prompt file_name (context_text chunks))) = true) →
      ∃ note, analyze file_name chunks pipeLoaded gen parse =
        minimalSchema file_name note := by
  intro fn chunks p gen parse h
  unfold analyze
  by_cases hc : chunks.isEmpty
  · exact ⟨"No content found.", by simp [hc]⟩
  · cases p with
    | false => exact ⟨"LLM not loaded.", by simp [hc]⟩
    | true =>
      have h3 : coerceFails parse (gen (extraction_prompt fn (context_text chunks))) = true := by
        rcases h with h | h | h
        · exact absurd (by simp [h]) hc
        · cases h
        · exact h
      rw [if_neg (by simpa using hc), if_pos rfl]
      unfold coerce
      unfold coerceFails at h3
      cases hp : parse (cleanResponse (gen (extraction_prompt fn (context_text chunks)))) with
      | none =>
        exact ⟨"Failed to parse analysis result. Raw output: " ++
          pySlice (cleanResponse (gen (extraction_prompt fn (context_text chunks)))) 100, rfl⟩
      | some v =>
        cases v with
        | jobj fs =>
          rw [hp] at h3
          cases hv : validateSchema (repairShape fs) with
          | ok cs =>
            have h3' : (match validateSchema (repairShape fs) with
                | Except.ok _ => false
                | Except.error _ => true) = true := h3
            rw [hv] at h3'
            cases h3'
          | error e =>
            refine ⟨"Validation error: " ++ e, ?_⟩
            have hgoal : (match validateSchema (repairShape fs) with
                | Except.ok cs => cs
                | Except.error e => minimalSchema fn ("Validation error: " ++ e)) =
                minimalSchema fn ("Validation error: " ++ e) := by rw [hv]
            exact hgoal
        | jnull => exact ⟨"Validation error: object has no attribute get", rfl⟩
        | jbool b => exact ⟨"Validation error: object has no attribute get", rfl⟩
        | jnum n => exact ⟨"Validation error: object has no attribute get", rfl⟩
        | jstr s => exact ⟨"Validation error: object has no attribute get", rfl⟩
        | jarr xs => exact ⟨"Validation error: object has no attribute get", rfl⟩

theorem claim_C10_witness :
    ∃ note, analyze "missing.pdf" [] true (fun p => p) (fun _ => none) =
      minimalSchema "missing.pdf" note :=
  claim_C10_degraded_record "missing.pdf" [] true (fun p => p) (fun _ => none)
    (Or.inl rfl)

/-- The rendered section of one bucket: header plus the joined first
`limitOf b` member chunks. -/
def sectionOf (cs : List Chunk) (b : BucketId) : String :=
  headerOf b ++ get_top_chunks (bucketOf b cs) (limitOf b)

/-- A single chunk tagged only `confidentiality`, with `chunk_index ≥ 3`
(so it lands in the confidentiality bucket and in no rendered bucket). -/
def confOnlyChunks : List Chunk :=
  [⟨"secret confidentiality clause body", "confidentiality", 5⟩]

/-- C6 (counterexample): on a store holding a single chunk tagged only
`confidentiality` with sequence index 5, (a) the confidentiality bucket is
non-empty yet its selected text does not occur anywhere in the assembled
context — the source populates the bucket but never renders it — and (b) the
parties bucket is empty yet its `--- PARTIES ---` label IS rendered; so both
"every non-empty bucket — including the confidentiality bucket — is
rendered" and "only non-empty buckets are rendered" fail. -/
theorem claim_C6_counterexample :
    (¬ ∀ t, t ∈ (bucketOf BucketId.confidentiality confOnlyChunks).take
        (limitOf BucketId.confidentiality) →
      strHasSub (full_context confOnlyChunks) t = true) ∧
    (bucketOf BucketId.parties confOnlyChunks = [] ∧
      strHasSub (full_context confOnlyChunks) "--- PARTIES ---" = true) := by
  refine ⟨fun hall => ?_, by decide, by decide⟩
  have h := hall "secret confidentiality clause body" (by decide)
  exact absurd h (by decide)

/-- C6 (amended): the assembled context is the concatenation, in the fixed
priority order intro, parties, dates, termination, law, payment, risk
factors, of exactly those seven sections; every one of the seven labels is
rendered **unconditionally** — its header occurs in the output whether or not
its bucket is empty — and the confidentiality bucket, although populated
during the partition step, is not among the rendered sections. -/
theorem claim_C6_amended :
    ∀ cs : List Chunk,
      full_context cs = joinWith "\n\n" (renderOrder.map (sectionOf cs)) ∧
      (∀ b, b ∈ renderOrder →
        ∃ pre post, full_context cs = pre ++ headerOf b ++ post) ∧
      BucketId.confidentiality ∉ renderOrder := by
  intro cs
  refine ⟨rfl, ?_, by decide⟩
  intro b hb
  have hmem : sectionOf cs b ∈ context_parts cs := by
    have : context_parts cs = renderOrder.map (sectionOf cs) := rfl
    rw [this]
    exact List.mem_map_of_mem (sectionOf cs) hb
  obtain ⟨pre, post, hj⟩ := joinWith_decomp "\n\n" (context_parts cs) _ hmem
  refine ⟨pre, get_top_chunks (bucketOf b cs) (limitOf b) ++ post, ?_⟩
  rw [show full_context cs = joinWith "\n\n" (context_parts cs) from rfl, hj]
  apply strData_ext
  simp [strData_append, sectionOf]

theorem claim_C6_witness :
    ∃ pre post, full_context ([] : List Chunk) =
      pre ++ headerOf BucketId.parties ++ post :=
  (claim_C6_amended []).2.1 BucketId.parties (by decide)

/-- C7: within each rendered bucket, the assembly takes the first N member
chunks in original store order — N = 3 for the intro/general and liability
buckets, N = 2 for every other rendered bucket — and the selected texts form
a sublist (hence an order-preserving subsequence, never re-ranked) of the
store-order chunk texts; the rendered section is exactly the header plus
those selected texts joined by the visible separator. -/
theorem claim_C7_bucket_selection :
    ∀ (b : BucketId) (cs : List Chunk), b ∈ renderOrder →
      ((bucketOf b cs).take (limitOf b)).Sublist (cs.map Chunk.text) ∧
      limitOf b = (if b = BucketId.general ∨ b = BucketId.liability then 3 else 2) ∧
      sectionOf cs b = headerOf b ++
        joinWith "\n...\n" ((bucketOf b cs).take (limitOf b)) := by
  intro b cs _
  refine ⟨?_, ?_, rfl⟩
  · have h1 : ((bucketOf b cs).take (limitOf b)).Sublist (bucketOf b cs) :=
      List.take_sublist _ _
    have h2 : (bucketOf b cs).Sublist (cs.map Chunk.text) := by
      unfold bucketOf
      exact (List.filter_sublist cs).map Chunk.text
    exact h1.trans h2
  · cases b <;> simp [limitOf]

theorem claim_C7_witness :
    ((bucketOf BucketId.general [⟨"opening recitals", "general", 0⟩]).take
        (limitOf BucketId.general)).Sublist
      (([⟨"opening recitals", "general", 0⟩] : List Chunk).map Chunk.text) ∧
    limitOf BucketId.general =
      (if BucketId.general = BucketId.general ∨ BucketId.general = BucketId.liability
       then 3 else 2) ∧
    sectionOf [⟨"opening recitals", "general", 0⟩] BucketId.general =
      headerOf BucketId.general ++ joinWith "\n...\n"
        ((bucketOf BucketId.general [⟨"opening recitals", "general", 0⟩]).take
          (limitOf BucketId.general)) :=
  claim_C7_bucket_selection BucketId.general [⟨"opening recitals", "general", 0⟩]
    (by decide)

/-- All keywords of the trigger table are stored lower-cased, which is what
makes the tagger's single `text.lower()` call case-insensitive. -/
theorem keywords_lowercase :
    ∀ p ∈ CLAUSE_KEYWORDS, ∀ kw ∈ p.2, pyLower kw = kw := by
  have hb : CLAUSE_KEYWORDS.all (fun ck => ck.2.all (fun kw => pyLower kw == kw)) = true := by
    rfl
  intro p hp kw hkw
  have h1 := List.all_eq_true.mp hb p hp
  have h2 := List.all_eq_true.mp h1 kw hkw
  exact eq_of_beq h2

/-- C8: the clause tagger assigns a clause type iff some trigger phrase of
that type occurs case-insensitively as a substring of the text, each type
independently (multi-label), and the returned tag string is the comma-join
of the detected types, or exactly `"general"` when none is detected. -/
theorem claim_C8_clause_tagger :
    ∀ text : String,
      (∀ c : String, c ∈ detectedClauses text ↔
        ∃ kws, (c, kws) ∈ CLAUSE_KEYWORDS ∧
          ∃ kw, kw ∈ kws ∧ strHasSub (pyLower text) (pyLower kw) = true) ∧
      detect_clause_types text =
        (if detectedClauses text = [] then "general"
         else joinWith "," (detectedClauses text)) := by
  intro text
  refine ⟨?_, rfl⟩
  intro c
  constructor
  · intro hc
    unfold detectedClauses at hc
    obtain ⟨ck, hmem, hfst⟩ := List.mem_map.mp hc
    obtain ⟨c1, kws⟩ := ck
    have hfil := List.mem_filter.mp hmem
    obtain ⟨kw, hkw, hsub⟩ := List.any_eq_true.mp hfil.2
    simp only at hfst
    subst hfst
    refine ⟨kws, hfil.1, kw, hkw, ?_⟩
    rw [keywords_lowercase _ hfil.1 kw hkw]
    exact hsub
  · rintro ⟨kws, hmem, kw, hkw, hsub⟩
    unfold detectedClauses
    apply List.mem_map.mpr
    refine ⟨(c, kws), List.mem_filter.mpr ⟨hmem, ?_⟩, rfl⟩
    apply List.any_eq_true.mpr
    refine ⟨kw, hkw, ?_⟩
    rwa [keywords_lowercase (c, kws) hmem kw hkw] at hsub

/-- Concrete ingestion run used to exhibit the call order: one file whose
text splits into a single chunk. -/
def ingestTraceDemo : List IngestEvent :=
  (ingest_one (E := Unit) (fun s => [s]) (fun s => "[MASKED] " ++ s)
    (fun l => l.map (fun _ => ())) "contract" "a.pdf" "hello world").1

/-- C9 (counterexample): the ingestion loop computes embeddings **before**
clause tagging — the concrete trace is extract, chunk, mask, embed, tag,
upsert — so the claimed step order extract → chunk → mask → tag → embed →
upsert (tagging before embedding) is violated: the tag event sits at index 4,
after the embed event at index 3. -/
theorem claim_C9_counterexample :
    ingestTraceDemo =
      [IngestEvent.extractText "a.pdf", IngestEvent.splitText "a.pdf",
       IngestEvent.maskChunk "a.pdf" 0, IngestEvent.embedChunks "a.pdf",
       IngestEvent.tagChunk "a.pdf" 0, IngestEvent.upsertCall "a.pdf"] ∧
    ¬ (∀ (i j : Nat), ingestTraceDemo[i]? = some (IngestEvent.tagChunk "a.pdf" 0) →
        ingestTraceDemo[j]? = some (IngestEvent.embedChunks "a.pdf") → i < j) := by
  refine ⟨rfl, fun hall => ?_⟩
  have h := hall 4 3 rfl rfl
  omega

theorem enum_map_snd_comp {α β : Type} (l : List α) (f : α → β) :
    l.enum.map (fun p => f p.2) = l.map f := by
  have h1 : (l.enum.map Prod.snd).map f = l.enum.map (fun p => f p.2) := by
    rw [List.map_map]
    rfl
  rw [← h1, List.enum_map_snd]

/-- C9 (amended): for every file with non-empty text and a non-empty chunk
list, ingestion performs extract → chunk → mask (per chunk) → **embed** →
**tag** (per chunk) → upsert; PII masking is applied to each chunk before
both embedding and tagging, and both the embeddings and the clause tags are
computed from the masked chunk texts — but embedding precedes tagging, not
the other way round. -/
theorem claim_C9_amended :
    ∀ {E : Type} (split : String → List String) (mask : String → String)
      (embedF : List String → List E) (doc_type file_name raw_text : String),
      raw_text ≠ "" → split raw_text ≠ [] →
      (ingest_one split mask embedF doc_type file_name raw_text).1 =
        [IngestEvent.extractText file_name, IngestEvent.splitText file_name]
          ++ (List.range (split raw_text).length).map (IngestEvent.maskChunk file_name)
          ++ [IngestEvent.embedChunks file_name]
          ++ (List.range (split raw_text).length).map (IngestEvent.tagChunk file_name)
          ++ [IngestEvent.upsertCall file_name] ∧
      ∃ p, (ingest_one split mask embedF doc_type file_name raw_text).2 = some p ∧
        p.documents = (split raw_text).map mask ∧
        p.embeddings = embedF ((split raw_text).map mask) ∧
        p.metadatas.map ChunkMeta.clause_types =
          ((split raw_text).map mask).map detect_clause_types ∧
        p.metadatas.map ChunkMeta.chunk_index = List.range (split raw_text).length := by
  intro E split mask embedF dt fn raw h1 h2
  unfold ingest_one
  rw [if_neg h1, if_neg h2]
  constructor
  · simp
  · refine ⟨_, rfl, rfl, rfl, ?_, ?_⟩
    · show ((((split raw).map mask).enum.map
          (fun q => (⟨fn, dt, q.1, detect_clause_types q.2⟩ : ChunkMeta))).map
            ChunkMeta.clause_types) = ((split raw).map mask).map detect_clause_types
      rw [List.map_map]
      exact enum_map_snd_comp ((split raw).map mask) detect_clause_types
    · show ((((split raw).map mask).enum.map
          (fun q => (⟨fn, dt, q.1, detect_clause_types q.2⟩ : ChunkMeta))).map
            ChunkMeta.chunk_index) = List.range (split raw).length
      rw [List.map_map]
      have hfst : ((split raw).map mask).enum.map Prod.fst =
          List.range ((split raw).map mask).length := List.enum_map_fst _
      rw [show (ChunkMeta.chunk_index ∘
          fun q : Nat × String => (⟨fn, dt, q.1, detect_clause_types q.2⟩ : ChunkMeta)) =
          (Prod.fst : Nat × String → Nat) from rfl]
      rw [hfst, List.length_map]

theorem claim_C9_witness :
    (ingest_one (E := Unit) (fun s => [s]) (fun s => "[MASKED] " ++ s)
        (fun l => l.map (fun _ => ())) "contract" "b.pdf" "some text").1 =
      [IngestEvent.extractText "b.pdf", IngestEvent.splitText "b.pdf",
       IngestEvent.maskChunk "b.pdf" 0, IngestEvent.embedChunks "b.pdf",
       IngestEvent.tagChunk "b.pdf" 0, IngestEvent.upsertCall "b.pdf"] := by
  have h := claim_C9_amended (fun s => [s]) (fun s => "[MASKED] " ++ s)
    (fun l => l.map (fun _ => ())) "contract" "b.pdf" "some text"
    (by decide) (by simp)
  rw [h.1]
  rfl

end RAGAssistant
